import Mathlib

set_option maxRecDepth 8000

/-!
Verification development for the Price-Label extraction pipeline
(`src/extractors.py`, `src/doc_builder.py`, `src/pdf_reader.py`,
`src/pipeline.py`, `src/models.py`).

The Python code is embedded shallowly: strings are Lean `String`s,
Python dictionaries are association lists, Python `float` values are
modelled as exact rationals (`ℚ`) — no claim below depends on rounding,
only on presence/absence (`None`-ness) of numeric fields — and the
concrete regular expressions of the source are run through a small
backtracking matcher that mirrors CPython `re` semantics (leftmost
match, ordered alternation, greedy/lazy repetition, capture groups,
backreferences, word boundaries). Character classes such as `\s`, `\w`
and case folding are modelled over the ASCII and Cyrillic ranges that
the source's patterns and inputs use.
-/

namespace PriceLabel

/-- Whitespace as matched by Python's `\s` / `str.strip` (ASCII range). -/
def isPySpace (c : Char) : Bool :=
  c = ' ' || c = '\t' || c = '\n' || c = '\r' || c = '\x0b' || c = '\x0c'

/-- Case folding for `re.IGNORECASE` / `str.lower`, covering the ASCII and
Cyrillic letters appearing in the source's patterns. -/
def pyToLower (c : Char) : Char :=
  if 'A' ≤ c ∧ c ≤ 'Z' then Char.ofNat (c.toNat + 32)
  else if 'А' ≤ c ∧ c ≤ 'Я' then Char.ofNat (c.toNat + 32)
  else if c = 'Ё' then 'ё'
  else c

/-- Python `str.lower()`. -/
def pyLower (s : String) : String := String.mk (s.data.map pyToLower)

/-- Word characters for `\b` (`\w`): ASCII alphanumerics, underscore and
Cyrillic letters. -/
def isWordChar (c : Char) : Bool :=
  ('A' ≤ c && c ≤ 'Z') || ('a' ≤ c && c ≤ 'z') || ('0' ≤ c && c ≤ '9') ||
  c = '_' || ('А' ≤ c && c ≤ 'я') || c = 'Ё' || c = 'ё'

def isAsciiDigit (c : Char) : Bool := '0' ≤ c && c ≤ '9'

def isAsciiAlpha (c : Char) : Bool := ('A' ≤ c && c ≤ 'Z') || ('a' ≤ c && c ≤ 'z')

/-- Python `str.strip()` on a character list. -/
def pyStripList (cs : List Char) : List Char :=
  ((cs.dropWhile isPySpace).reverse.dropWhile isPySpace).reverse

/-- Python `str.strip()`. -/
def pyStrip (s : String) : String := String.mk (pyStripList s.data)

/-- Python `str.strip(chars)`. -/
def pyStripSet (chars : List Char) (s : String) : String :=
  String.mk (((s.data.dropWhile (chars.contains ·)).reverse.dropWhile (chars.contains ·)).reverse)

/-- Python `str.rstrip(chars)`. -/
def pyRStripSet (chars : List Char) (s : String) : String :=
  String.mk ((s.data.reverse.dropWhile (chars.contains ·)).reverse)

/-- Line-break characters for Python `str.splitlines`. -/
def isPyLineBreak (c : Char) : Bool :=
  c = '\n' || c = '\r' || c = '\x0b' || c = '\x0c' ||
  c = '\x1c' || c = '\x1d' || c = '\x1e' || c = '\x85' ||
  c = ' ' || c = ' '

def pySplitlinesAux : List Char → List Char → List String
  | acc, [] => if acc.isEmpty then [] else [String.mk acc.reverse]
  | acc, '\r' :: '\n' :: rest => String.mk acc.reverse :: pySplitlinesAux [] rest
  | acc, c :: rest =>
      if isPyLineBreak c then String.mk acc.reverse :: pySplitlinesAux [] rest
      else pySplitlinesAux (c :: acc) rest

/-- Python `str.splitlines()`. -/
def pySplitlines (s : String) : List String := pySplitlinesAux [] s.data

/-- Python substring membership `sub in s`. -/
def listIsInfix (pat : List Char) : List Char → Bool
  | [] => pat.isEmpty
  | c :: rest => pat.isPrefixOf (c :: rest) || listIsInfix pat rest

def pyContains (s sub : String) : Bool := listIsInfix sub.data s.data

/-- Python `str.startswith`. -/
def pyStartsWith (s pre : String) : Bool := pre.data.isPrefixOf s.data

/-- `re.sub(r"\s+", " ", ·)`: collapse every whitespace run to one space.
The Boolean flag records being inside a run whose single space has already
been emitted (structural recursion, so the kernel can evaluate it). -/
def collapseWsAux : Bool → List Char → List Char
  | _, [] => []
  | dropping, c :: rest =>
      if isPySpace c then
        if dropping then collapseWsAux true rest
        else ' ' :: collapseWsAux true rest
      else c :: collapseWsAux false rest

def collapseWsList (l : List Char) : List Char := collapseWsAux false l

/-- `re.sub(r"\s{2,}", " ", ·)`: collapse whitespace runs of length ≥ 2 to one
space, leaving single whitespace characters (e.g. a lone newline) as they
are. -/
def collapseWs2Aux : Bool → List Char → List Char
  | _, [] => []
  | dropping, c :: rest =>
      if isPySpace c then
        if dropping then collapseWs2Aux true rest
        else
          match rest with
          | r :: _ =>
              if isPySpace r then ' ' :: collapseWs2Aux true rest
              else c :: collapseWs2Aux false rest
          | [] => [c]
      else c :: collapseWs2Aux false rest

def collapseWs2List (l : List Char) : List Char := collapseWs2Aux false l

/-- Python `str.replace(pat, rep)` (all non-overlapping occurrences, left to
right; `pat` is non-empty at every call site).  The fuel argument only makes
the recursion structural; every occurrence consumes at least one character,
so `l.length + 1` can never run out. -/
def pyReplaceAux (pat rep : List Char) : Nat → List Char → List Char
  | _, [] => []
  | 0, l => l
  | fuel + 1, c :: rest =>
      if pat ≠ [] && pat.isPrefixOf (c :: rest) then
        rep ++ pyReplaceAux pat rep fuel ((c :: rest).drop pat.length)
      else c :: pyReplaceAux pat rep fuel rest

def pyReplaceList (pat rep l : List Char) : List Char :=
  pyReplaceAux pat rep (l.length + 1) l

def pyReplace (s pat rep : String) : String :=
  String.mk (pyReplaceList pat.data rep.data s.data)

/-! ## A small backtracking regex matcher (CPython `re` semantics)

`matchAll` enumerates every way a pattern can match at a fixed position, in
exactly the order the CPython backtracking engine explores them, so the head
of the list is the match `re` would produce.  The matcher state is the pair
(reversed consumed prefix, remaining suffix); the prefix is kept for the
word-boundary and start-anchor assertions. -/

/-- Regular-expression abstract syntax (enough for every pattern in the
source): character class, sequence, ordered alternation, greedy star, lazy
star, capture group, backreference and zero-width assertion. -/
inductive RE where
  | eps : RE
  | cls (p : Char → Bool) : RE
  | seq (a b : RE) : RE
  | alt (a b : RE) : RE
  | starG (a : RE) : RE
  | starL (a : RE) : RE
  | grp (n : Nat) (a : RE) : RE
  | bref (n : Nat) : RE
  | look (f : Option Char → List Char → Bool) : RE

/-- Matcher state: reversed consumed prefix, and remaining input. -/
abbrev MSt := List Char × List Char

/-- Captured groups, most recent first (so `List.lookup` finds the latest). -/
abbrev Caps := List (Nat × List Char)

def lookupCap (k : Caps) (n : Nat) : Option (List Char) :=
  List.lookup n k

/-- Number of syntax nodes of a pattern (for the backtracking-depth fuel). -/
def reSize : RE → Nat
  | .eps => 1
  | .cls _ => 1
  | .seq a b => reSize a + reSize b + 1
  | .alt a b => reSize a + reSize b + 1
  | .starG a => reSize a + 1
  | .starL a => reSize a + 1
  | .grp _ a => reSize a + 1
  | .bref _ => 1
  | .look _ => 1

/-- All ways `re` can match at the current position, in exactly the order the
CPython backtracking engine explores them (so the head is the match `re`
produces).  The fuel argument makes the recursion structural so the kernel
can evaluate matches; it bounds the depth of the call tree, in which each
star unrolling consumes at least one input character (empty star iterations
are cut off, as CPython also stops repeating on an empty match).  Along any
call path the depth is at most the pattern size plus one star unrolling per
remaining character for every star on the path; every pattern in this file
has star-free star bodies, so `(reSize re + 2) * (input length + 2)` — the
fuel used by `searchFrom` below — is far more than any path can consume, and
the out-of-fuel branch is unreachable. -/
def matchAll : Nat → RE → Caps → MSt → List (Caps × MSt)
  | 0, _, _, _ => []
  | fuel + 1, re, k, st =>
      match re with
      | .eps => [(k, st)]
      | .cls p =>
          match st.2 with
          | [] => []
          | c :: r2 => if p c then [(k, (c :: st.1, r2))] else []
      | .seq a b => (matchAll fuel a k st).flatMap (fun x => matchAll fuel b x.1 x.2)
      | .alt a b => matchAll fuel a k st ++ matchAll fuel b k st
      | .starG a =>
          (((matchAll fuel a k st).filter (fun x => x.2.2.length < st.2.length)).flatMap
            (fun x => matchAll fuel (.starG a) x.1 x.2)) ++ [(k, st)]
      | .starL a =>
          (k, st) :: ((matchAll fuel a k st).filter (fun x => x.2.2.length < st.2.length)).flatMap
            (fun x => matchAll fuel (.starL a) x.1 x.2)
      | .grp n a =>
          (matchAll fuel a k st).map (fun x =>
            ((n, st.2.take (st.2.length - x.2.2.length)) :: x.1, x.2))
      | .bref n =>
          let cap := (lookupCap k n).getD []
          if cap.isPrefixOf st.2 then [(k, (cap.reverse ++ st.1, st.2.drop cap.length))] else []
      | .look f => if f st.1.head? st.2 then [(k, st)] else []

/-- Fuel that the depth argument above shows ample for this file's patterns. -/
def reFuel (re : RE) (n : Nat) : Nat := (reSize re + 2) * (n + 2)

/-- One match attempt at the current position, the whole match recorded as
group `0`. -/
def matchHere (re : RE) (d r : List Char) : Option (Caps × MSt) :=
  (matchAll (reFuel re r.length) (.grp 0 re) [] (d, r)).head?

/-- `re.search` scanning from a given state: try each start position left to
right, returning the first (backtracking-preferred) match. -/
def searchFrom (re : RE) : List Char → List Char → Option (Caps × MSt)
  | d, [] => matchHere re d []
  | d, c :: r =>
      match matchHere re d (c :: r) with
      | some x => some x
      | none => searchFrom re (c :: d) r

/-- `re.search(pattern, s)`. -/
def reSearch (re : RE) (s : String) : Option (Caps × MSt) := searchFrom re [] s.data

/-- `m.group(n)` of a search result. -/
def reGroup (res : Option (Caps × MSt)) (n : Nat) : Option String :=
  res.bind (fun x => (lookupCap x.1 n).map (fun cs => String.mk cs))

/-- `re.match(pattern, s)` (anchored at the start). -/
def reMatchAt (re : RE) (s : String) : Option (Caps × MSt) :=
  matchHere re [] s.data

/-- `re.search(pattern, s) is not None`. -/
def reTest (re : RE) (s : String) : Bool := (reSearch re s).isSome

/-- `re.fullmatch("[class]+", s)` as a boolean. -/
def reFullmatchCls (p : Char → Bool) (s : String) : Bool :=
  !s.data.isEmpty && s.data.all p

/-- `re.finditer`: all non-overlapping matches (whole-match strings), left to
right.  Every pattern used with `finditer` in the source matches at least one
character, so each round strictly shrinks the remaining input: the fuel
`r.length + 1` cannot run out, and the empty-match case simply stops. -/
def finditerAux (re : RE) : Nat → List Char → List Char → List String
  | 0, _, _ => []
  | fuel + 1, d, r =>
      match searchFrom re d r with
      | none => []
      | some x =>
          let m := (lookupCap x.1 0).getD []
          if x.2.2.length < r.length then
            String.mk m :: finditerAux re fuel x.2.1 x.2.2
          else [String.mk m]

def reFinditer (re : RE) (s : String) : List String :=
  finditerAux re (s.data.length + 1) [] s.data

/-! ### Pattern construction helpers -/

/-- One literal character, optionally case-insensitive. -/
def reChar (ci : Bool) (c : Char) : RE :=
  if ci then .cls (fun x => pyToLower x = pyToLower c) else .cls (fun x => x = c)

/-- A literal string, optionally case-insensitive. -/
def reLit (ci : Bool) (s : String) : RE :=
  s.data.foldr (fun c acc => .seq (reChar ci c) acc) .eps

def reSeqs : List RE → RE
  | [] => .eps
  | [a] => a
  | a :: rest => .seq a (reSeqs rest)

/-- Ordered alternation `a|b|...` (first alternative preferred). -/
def reAlts : List RE → RE
  | [] => .eps
  | [a] => a
  | a :: rest => .alt a (reAlts rest)

/-- Greedy `?`. -/
def reOpt (a : RE) : RE := .alt a .eps

/-- `+` (greedy). -/
def rePlus (a : RE) : RE := .seq a (.starG a)

/-- `{m,}` (greedy). -/
def reRepAtLeast (a : RE) (m : Nat) : RE :=
  reSeqs (List.replicate m a ++ [.starG a])

/-- At most `k` further greedy repetitions (helper for `{m,n}`). -/
def reOptUpTo (a : RE) : Nat → RE
  | 0 => .eps
  | k + 1 => reOpt (.seq a (reOptUpTo a k))

/-- `{m,n}` (greedy). -/
def reRepRange (a : RE) (m n : Nat) : RE :=
  reSeqs (List.replicate m a ++ [reOptUpTo a (n - m)])

/-- `\d`. -/
def chDigit : RE := .cls isAsciiDigit

/-- `\s`. -/
def chWs : RE := .cls isPySpace

/-- `\S`. -/
def chNonWs : RE := .cls (fun c => !isPySpace c)

/-- `.` (any character except a newline). -/
def chAny : RE := .cls (fun c => c ≠ '\n')

/-- `[A-Z]` without flags. -/
def chUpper : RE := .cls (fun c => 'A' ≤ c && c ≤ 'Z')

/-- `[A-Z]` under `re.IGNORECASE`. -/
def chUpperCI : RE := .cls isAsciiAlpha

/-- `[A-Za-z]`. -/
def chAlpha : RE := .cls isAsciiAlpha

/-- A character out of an explicit set. -/
def chSet (l : List Char) : RE := .cls (fun c => l.contains c)

/-- A character not in an explicit set (e.g. `[^\n]`). -/
def chNotSet (l : List Char) : RE := .cls (fun c => !l.contains c)

/-- `\b` word boundary. -/
def wordB : RE :=
  .look (fun p n =>
    (match p with | some c => isWordChar c | none => false) ≠
    (match n with | c :: _ => isWordChar c | [] => false))

/-- `^` (no `re.MULTILINE` anywhere in the source). -/
def bolA : RE := .look (fun p _ => p.isNone)

/-- `$` (end of input, or just before a final newline). -/
def eolA : RE := .look (fun _ n => n = [] || n = ['\n'])

/-! ## Data model (`src/models.py`)

Python `float` fields are modelled as `Option ℚ` (exact rationals standing in
for IEEE doubles; every claim below depends only on which fields are `None`,
never on rounding).  The `raw : dict[str, Any]` diagnostics side channel of
`ExtractedData` is not part of any claim and is omitted. -/

structure Position where
  code : String := ""
  name_en : String := ""
  name_ru : String := ""
  quantity : Option ℚ := none
  packing_en : String := ""
  packing_ru : String := ""
  unit_price : Option ℚ := none
  total_price : Option ℚ := none
  currency : String := ""
  storage_temperature : String := ""
deriving DecidableEq, Repr

structure ExtractedData where
  invoice_no : String := ""
  invoice_date : String := ""
  buyer_name : String := ""
  buyer_address : String := ""
  exporter_name : String := ""
  exporter_name_ru : String := ""
  exporter_address : String := ""
  terms_of_delivery : String := ""
  period_of_validity : String := ""
  specification_date : String := ""
  storage_temperature : String := ""
  positions : List Position := []
  currency : String := ""
deriving DecidableEq, Repr

/-! ## `src/extractors.py` -/

def DEFAULT_STORAGE_TEMPERATURE_EN : String := "+15C to +25C ambient"

/-- `_clean_space`: `re.sub(r"\s+", " ", value).strip()`. -/
def _clean_space (value : String) : String :=
  pyStrip (String.mk (collapseWsList value.data))

/-- `_find_first(patterns, text)` with its default `re.IGNORECASE` flag (no
call site passes explicit flags): first pattern that matches wins, returning
its whitespace-cleaned group 1. -/
def _find_first (patterns : List RE) (text : String) : String :=
  match patterns with
  | [] => ""
  | p :: rest =>
      match reGroup (reSearch p text) 1 with
      | some g => _clean_space g
      | none => _find_first rest text

def pat_INR : RE := reSeqs [wordB, reLit true "INR", wordB]
def pat_USD : RE := reSeqs [wordB, reLit true "USD", wordB]
def pat_EUR : RE := reSeqs [wordB, reLit true "EUR", wordB]

/-- `\(In\s+([A-Z]{3})\)` (case-sensitive: no flag at this call site). -/
def pat_InCCC : RE :=
  reSeqs [reChar false '(', reLit false "In", rePlus chWs,
    .grp 1 (reSeqs [chUpper, chUpper, chUpper]), reChar false ')']

def _extract_currency (text : String) : String :=
  if pyContains text "₹" || reTest pat_INR text then "INR"
  else if pyContains text "$" || reTest pat_USD text then "USD"
  else if pyContains text "€" || reTest pat_EUR text then "EUR"
  else match reGroup (reSearch pat_InCCC text) 1 with
       | some g => g
       | none => ""

def digitsToNat (cs : List Char) : Nat :=
  cs.foldl (fun n c => n * 10 + (c.toNat - 48)) 0

/-- CPython `float(s)` restricted to the alphabet `[0-9.\-]` that survives
`_to_float`'s cleaning: success exactly on `-?(\d+|\d+\.\d*|\.\d+)`. -/
def pyFloatParse (cs : List Char) : Option ℚ :=
  let (neg, body) := match cs with
    | '-' :: rest => (true, rest)
    | _ => (false, cs)
  let intPart := body.takeWhile isAsciiDigit
  let rest := body.drop intPart.length
  let val? : Option ℚ :=
    match rest with
    | [] => if intPart.isEmpty then none else some (digitsToNat intPart : ℚ)
    | '.' :: frac =>
        if frac.all isAsciiDigit && !(intPart.isEmpty && frac.isEmpty) then
          some ((digitsToNat intPart : ℚ) + (digitsToNat frac : ℚ) / ((10 : ℚ) ^ frac.length))
        else none
    | _ => none
  val?.map (fun v => if neg then -v else v)

/-- `_to_float`. -/
def _to_float (value : String) : Option ℚ :=
  let candidate := pyStrip (String.mk ((value.data.filter (· ≠ ' ')).filter (· ≠ ',')))
  let candidate := candidate.data.filter (fun c => isAsciiDigit c || c = '.' || c = '-')
  if candidate.isEmpty then none
  else pyFloatParse candidate

/-- `\b(?:\d{1,3}(?:,\d{3})+|\d+)(?:\.\d+)?\b`. -/
def pat_number : RE :=
  reSeqs [wordB,
    .alt (reSeqs [reRepRange chDigit 1 3,
            rePlus (reSeqs [reChar false ',', chDigit, chDigit, chDigit])])
         (rePlus chDigit),
    reOpt (reSeqs [reChar false '.', rePlus chDigit]),
    wordB]

def _extract_numbers (text : String) : List ℚ :=
  (reFinditer pat_number text).filterMap _to_float

/-- `\b(\d{1,2}[-./][A-Za-z]{3,9}[-./]\d{2,4})\b` (the class holds dash, dot, slash). -/
def pat_date_alpha : RE :=
  reSeqs [wordB,
    .grp 1 (reSeqs [reRepRange chDigit 1 2, chSet ['-', '/', '.'],
      reRepRange chAlpha 3 9, chSet ['-', '/', '.'], reRepRange chDigit 2 4]),
    wordB]

/-- `\b\d{1,2}([-./])\d{1,2}\1\d{2,4}\b` (class: dot, slash, dash) (note the backreference). -/
def pat_date_numeric : RE :=
  reSeqs [wordB, reRepRange chDigit 1 2, .grp 1 (chSet ['.', '/', '-']),
    reRepRange chDigit 1 2, .bref 1, reRepRange chDigit 2 4, wordB]

def _extract_invoice_date (text : String) : String :=
  match reGroup (reSearch pat_date_alpha text) 1 with
  | some g => g
  | none => (reGroup (reSearch pat_date_numeric text) 0).getD ""

def collectBlock (stops : List String) : List String → List String
  | [] => []
  | line :: rest =>
      if line = "" then collectBlock stops rest
      else if stops.any (fun stop => pyContains (pyLower line) (pyLower stop)) then []
      else line :: collectBlock stops rest

def _extract_block (text start_label : String) (stop_labels : List String) : String :=
  let lines := (pySplitlines text).map pyStrip
  match lines.findIdx? (fun line => pyContains (pyLower line) (pyLower start_label)) with
  | none => ""
  | some start_idx =>
      pyStrip (String.intercalate "\n" (collectBlock stop_labels (lines.drop (start_idx + 1))))

/-- `^(.*?)(\d+\s*(?:mg|g|kg|ml|mcg)(?:\s*/\s*(?:vial|vials|ampoule|ampoules|unit|units|un|шт))?)$`
(`re.IGNORECASE`). -/
def pat_name_packing : RE :=
  reSeqs [bolA,
    .grp 1 (.starL chAny),
    .grp 2 (reSeqs [rePlus chDigit, .starG chWs,
      reAlts [reLit true "mg", reLit true "g", reLit true "kg", reLit true "ml", reLit true "mcg"],
      reOpt (reSeqs [.starG chWs, reChar false '/', .starG chWs,
        reAlts [reLit true "vial", reLit true "vials", reLit true "ampoule", reLit true "ampoules",
                reLit true "unit", reLit true "units", reLit true "un", reLit true "шт"]])]),
    eolA]

def _split_name_and_packing (line : String) : String × String :=
  let text := _clean_space line
  match reSearch pat_name_packing text with
  | some res =>
      (pyRStripSet ['-', '/'] (_clean_space (String.mk ((lookupCap res.1 1).getD []))),
       _clean_space (String.mk ((lookupCap res.1 2).getD [])))
  | none => (text, "")

def goodsCollect : List String → List String
  | [] => []
  | line :: rest =>
      let low := pyLower line
      if pyContains low "amount in words" || pyContains low "declaration" ||
         pyStartsWith low "for " then []
      else if line ≠ "" then line :: goodsCollect rest
      else goodsCollect rest

def _find_goods_block_lines (pi_text : String) : List String :=
  let lines := (pySplitlines pi_text).map pyStrip
  match lines.findIdx? (fun line => pyContains (pyLower line) "description of goods") with
  | none => []
  | some start => goodsCollect (lines.drop (start + 1))

/-- `(mark\s*&\s*nos|part\s*no|description\s*of\s*goods|quantity|rate/item|total\s*value|in\s*vails|in\s*vials|incoterms)`
(`re.IGNORECASE`). -/
def pat_header_noise : RE :=
  reAlts [reSeqs [reLit true "mark", .starG chWs, reChar false '&', .starG chWs, reLit true "nos"],
          reSeqs [reLit true "part", .starG chWs, reLit true "no"],
          reSeqs [reLit true "description", .starG chWs, reLit true "of", .starG chWs, reLit true "goods"],
          reLit true "quantity",
          reLit true "rate/item",
          reSeqs [reLit true "total", .starG chWs, reLit true "value"],
          reSeqs [reLit true "in", .starG chWs, reLit true "vails"],
          reSeqs [reLit true "in", .starG chWs, reLit true "vials"],
          reLit true "incoterms"]

/-- `[A-Za-z0-9/\-]`. -/
def chCodeChar : RE := .cls (fun c => isAsciiAlpha c || isAsciiDigit c || c = '-' || c = '/')

/-- `\b([A-Z]{2,}-[A-Z]{2,}-\d{2,4})\b` (via `_find_first`, so `re.IGNORECASE`). -/
def pat_code1 : RE :=
  reSeqs [wordB,
    .grp 1 (reSeqs [reRepAtLeast chUpperCI 2, reChar false '-', reRepAtLeast chUpperCI 2,
      reChar false '-', reRepRange chDigit 2 4]),
    wordB]

/-- `\bPART\s*NO\s*[:\-]?\s*([A-Za-z0-9/\-]+)\b` (`re.IGNORECASE`). -/
def pat_code2 : RE :=
  reSeqs [wordB, reLit true "PART", .starG chWs, reLit true "NO", .starG chWs,
    reOpt (chSet [':', '-']), .starG chWs, .grp 1 (rePlus chCodeChar), wordB]

/-- `[\d.,\s]` (for the numeric-only-line `fullmatch`). -/
def isNumNoise (c : Char) : Bool := isAsciiDigit c || c = '.' || c = ',' || isPySpace c

/-- Python `max(candidates, key=lambda x: (letters, len))`: the first element
realising the lexicographic maximum (later elements replace only when
strictly greater). -/
def lexGtNN (a b : Nat × Nat) : Bool := a.1 > b.1 || (a.1 = b.1 && a.2 > b.2)

def maxByKeyFirst (key : String → Nat × Nat) : List String → Option String
  | [] => none
  | x :: rest => some (rest.foldl (fun best y => if lexGtNN (key y) (key best) then y else best) x)

def letterCount (s : String) : Nat := (s.data.filter isAsciiAlpha).length

def _extract_goods_block_position (pi_text currency : String) : Option Position :=
  let block := _find_goods_block_lines pi_text
  if block.isEmpty then none
  else
    let block_text := String.intercalate "\n" block
    let nums := _extract_numbers block_text
    let qut : Option ℚ × Option ℚ × Option ℚ :=
      if nums.length ≥ 3 then
        (nums[nums.length - 3]?, nums[nums.length - 2]?, nums[nums.length - 1]?)
      else if nums.length = 2 then (some 1, nums[0]?, nums[1]?)
      else if nums.length = 1 then (nums[0]?, none, none)
      else (none, none, none)
    let name_candidates := block.filter (fun line =>
      !reTest pat_header_noise line && decide (letterCount line ≥ 8) && !reFullmatchCls isNumNoise line)
    match maxByKeyFirst (fun x => (letterCount x, x.data.length)) name_candidates with
    | none => none
    | some name_line =>
        let np := _split_name_and_packing name_line
        let code0 := _find_first [pat_code1, pat_code2] block_text
        some { code := if code0 = "" then "ITEM-1" else code0,
               name_en := np.1, packing_en := np.2,
               quantity := qut.1, unit_price := qut.2.1, total_price := qut.2.2,
               currency := currency }

/-- `^(?P<code>[A-Za-z0-9/\-]{3,})\s+(?P<qty>\d+(?:[.,]\d+)?)\s+(?P<unit>[\d,]+(?:\.\d{2})?)\s+(?P<total>[\d,]+(?:\.\d{2})?)$`
(case-sensitive, used with `re.Match` anchoring; named groups are 1–4). -/
def chDigitComma : RE := .cls (fun c => isAsciiDigit c || c = ',')

def pat_row : RE :=
  reSeqs [.grp 1 (reRepAtLeast chCodeChar 3),
    rePlus chWs,
    .grp 2 (reSeqs [rePlus chDigit, reOpt (reSeqs [chSet ['.', ','], rePlus chDigit])]),
    rePlus chWs,
    .grp 3 (reSeqs [rePlus chDigitComma, reOpt (reSeqs [reChar false '.', chDigit, chDigit])]),
    rePlus chWs,
    .grp 4 (reSeqs [rePlus chDigitComma, reOpt (reSeqs [reChar false '.', chDigit, chDigit])]),
    eolA]

def invalid_codes : List String := ["incoterms", "invoice", "payment", "terms", "in"]

def rowPositions (lines : List String) (currency : String) : List Position :=
  lines.filterMap (fun line =>
    let normalized := String.mk (collapseWsList line.data)
    match reMatchAt pat_row normalized with
    | none => none
    | some res =>
        let code := String.mk ((lookupCap res.1 1).getD [])
        if invalid_codes.contains (pyLower code) then none
        else some { code := code,
                    quantity := _to_float (String.mk ((lookupCap res.1 2).getD [])),
                    unit_price := _to_float (String.mk ((lookupCap res.1 3).getD [])),
                    total_price := _to_float (String.mk ((lookupCap res.1 4).getD [])),
                    currency := currency })

/-- `\b\d+\s*[xX]\s*\d+\s*[A-Za-z]+\b|\b\d+\s*(?:mg|g|kg|ml|l|mcg|iu)(?:\s*/\s*(?:vial|vials|ampoule|ampoules))?\b`
(`re.IGNORECASE`). -/
def pat_packing : RE :=
  .alt (reSeqs [wordB, rePlus chDigit, .starG chWs, chSet ['x', 'X'], .starG chWs,
          rePlus chDigit, .starG chWs, rePlus chAlpha, wordB])
       (reSeqs [wordB, rePlus chDigit, .starG chWs,
          reAlts [reLit true "mg", reLit true "g", reLit true "kg", reLit true "ml",
                  reLit true "l", reLit true "mcg", reLit true "iu"],
          reOpt (reSeqs [.starG chWs, reChar false '/', .starG chWs,
            reAlts [reLit true "vial", reLit true "vials", reLit true "ampoule", reLit true "ampoules"]]),
          wordB])

/-- `authorised signatory|amount in words|mark\s*&\s*nos|rate/item|total\s*value|in\s*vails`
(`re.IGNORECASE`). -/
def pat_desc_noise : RE :=
  reAlts [reLit true "authorised signatory",
          reLit true "amount in words",
          reSeqs [reLit true "mark", .starG chWs, reChar false '&', .starG chWs, reLit true "nos"],
          reLit true "rate/item",
          reSeqs [reLit true "total", .starG chWs, reLit true "value"],
          reSeqs [reLit true "in", .starG chWs, reLit true "vails"]]

/-- `^\d+\s*[xX]\s*\d+`. -/
def pat_xstart : RE :=
  reSeqs [bolA, rePlus chDigit, .starG chWs, chSet ['x', 'X'], .starG chWs, rePlus chDigit]

/-- Name/packing candidate collection over description-like lines, in line
order. -/
def descScan : List String → List String × List String
  | [] => ([], [])
  | line :: rest =>
      let np := descScan rest
      if reTest pat_desc_noise line then np
      else if reTest pat_packing line then
        let spl := _split_name_and_packing line
        if spl.2 ≠ "" then
          ((if letterCount spl.1 ≥ 4 then spl.1 :: np.1 else np.1),
           (if reTest pat_xstart line then _clean_space line else spl.2) :: np.2)
        else (np.1, _clean_space line :: np.2)
      else if letterCount line ≥ 8 then (_clean_space line :: np.1, np.2)
      else np

/-- Loop body of the per-position name/packing enrichment in
`_extract_positions`. -/
def enrichPosition (name_candidates packing_candidates : List String) (idx : Nat) (pos : Position) : Position :=
  let pos :=
    if idx < name_candidates.length ∧ pos.name_en = "" then
      { pos with name_en := name_candidates.getD idx "" }
    else if name_candidates ≠ [] ∧ pos.name_en = "" then
      { pos with name_en := name_candidates.getD 0 "" }
    else pos
  let pos :=
    if idx < packing_candidates.length ∧ pos.packing_en = "" then
      { pos with packing_en := packing_candidates.getD idx "" }
    else if packing_candidates ≠ [] ∧ pos.packing_en = "" then
      { pos with packing_en := packing_candidates.getD 0 "" }
    else pos
  if pos.name_en ≠ "" ∧ pos.packing_en = "" then
    let spl := _split_name_and_packing pos.name_en
    if spl.2 ≠ "" then { pos with name_en := spl.1, packing_en := spl.2 } else pos
  else pos

/-- The two fallback steps of `_extract_positions`: when no strict rows were
parsed, try the goods-block position, and failing that a bare `ITEM-1`
placeholder. -/
def positionsWithFallback (pi_text currency : String) (positions : List Position) : List Position :=
  let positions :=
    if positions.isEmpty then
      match _extract_goods_block_position pi_text currency with
      | some fallback => [fallback]
      | none => positions
    else positions
  if positions.isEmpty then [{ code := "ITEM-1", currency := currency }] else positions

/-- The closing step of `_extract_positions`: when the first parsed row is
missing a price, substitute the goods-block row if it has both prices,
keeping the name/packing the row already had. -/
def finalPriceSwap (pi_text currency : String) : List Position → List Position
  | [] => []
  | p0 :: rest =>
      if p0.unit_price = none ∨ p0.total_price = none then
        match _extract_goods_block_position pi_text currency with
        | some fb =>
            if fb.unit_price ≠ none ∧ fb.total_price ≠ none then
              let fb := if fb.name_en = "" ∧ p0.name_en ≠ "" then { fb with name_en := p0.name_en } else fb
              let fb := if fb.packing_en = "" ∧ p0.packing_en ≠ "" then { fb with packing_en := p0.packing_en } else fb
              fb :: rest
            else p0 :: rest
        | none => p0 :: rest
      else p0 :: rest

def _extract_positions (pi_text description_text currency : String) : List Position :=
  let lines := ((pySplitlines pi_text).map pyStrip).filter (· ≠ "")
  let positions := rowPositions lines currency
  let desc_lines0 := (pySplitlines description_text).filterMap
    (fun ln => if pyStrip ln ≠ "" then some (pyStripSet [' ', '-'] ln) else none)
  let desc_lines := if desc_lines0.isEmpty then _find_goods_block_lines pi_text else desc_lines0
  let cands := descScan desc_lines
  let positions := positionsWithFallback pi_text currency positions
  let positions := positions.mapIdx (enrichPosition cands.1 cands.2)
  finalPriceSwap pi_text currency positions

def descCollect : List String → List String
  | [] => []
  | line :: rest =>
      let low := pyLower line
      if pyContains low "amount in words" || pyContains low "declaration" then []
      else if pyStrip line ≠ "" then pyStrip line :: descCollect rest
      else descCollect rest

def _extract_description_lines (pi_text : String) : List String :=
  let lines := (pySplitlines pi_text).map pyStrip
  match lines.findIdx? (fun line => pyContains (pyLower line) "description of goods") with
  | none => []
  | some start_idx => descCollect (lines.drop (start_idx + 1))

/-- Upper-casing for `incoterm.upper()` (ASCII). -/
def pyToUpper (c : Char) : Char :=
  if 'a' ≤ c ∧ c ≤ 'z' then Char.ofNat (c.toNat - 32) else c

def pyUpper (s : String) : String := String.mk (s.data.map pyToUpper)

/-- `\b(CPT|FOB|CIF|EXW|DAP|DDP|FCA)\b` (`re.IGNORECASE` at every use). -/
def pat_incoterm : RE :=
  reSeqs [wordB,
    .grp 1 (reAlts [reLit true "CPT", reLit true "FOB", reLit true "CIF", reLit true "EXW",
      reLit true "DAP", reLit true "DDP", reLit true "FCA"]),
    wordB]

/-- `\b(by\s+air|air)\b` (no flag; applied to already-lowercased text). -/
def pat_air : RE :=
  reSeqs [wordB,
    .grp 1 (.alt (reSeqs [reLit false "by", rePlus chWs, reLit false "air"]) (reLit false "air")),
    wordB]

def _normalize_terms (value : String) : String :=
  if value = "" then ""
  else
    let text := _clean_space value
    let low := pyLower text
    let incoterm := _find_first [pat_incoterm] text
    if incoterm = "" then text
    else
      let has_air := reTest pat_air low
      let city := if pyContains low "moscow" then "MOSCOW"
                  else if pyContains low "hyderabad" then "HYDERABAD"
                  else ""
      let result := pyUpper incoterm
      let result := if has_air then result ++ " BY AIR" else result
      if city ≠ "" then result ++ " " ++ city else result

def firstPassTerms : List String → Option String
  | [] => none
  | line :: rest =>
      if reTest pat_incoterm line then
        let normalized := _normalize_terms line
        if normalized ≠ "" then some normalized else firstPassTerms rest
      else firstPassTerms rest

def secondPassTerms : List String → Option String
  | [] => none
  | line :: rest =>
      if pyContains (pyLower line) "incoterms" then
        let normalized := _normalize_terms line
        if normalized ≠ "" then some normalized else secondPassTerms rest
      else secondPassTerms rest

def windowScan : List String → Option String
  | [] => none
  | candidate :: rest =>
      let normalized := _normalize_terms candidate
      if normalized ≠ "" ∧ normalized ≠ _clean_space candidate then some normalized
      else windowScan rest

def thirdPassTerms : List String → Option String
  | [] => none
  | line :: rest =>
      let low := pyLower line
      if pyContains low "terms of delivery" || pyContains low "delivery conditions" then
        match windowScan ((line :: rest).take 6) with
        | some r => some r
        | none => thirdPassTerms rest
      else thirdPassTerms rest

def _extract_terms (pi_text : String) : String :=
  let lines := ((pySplitlines pi_text).map pyStrip).filter (· ≠ "")
  match firstPassTerms lines with
  | some r => r
  | none =>
      match secondPassTerms lines with
      | some r => r
      | none => (thirdPassTerms lines).getD ""

/-- `\b([A-Z]{2,}/PI/\d{2}-\d{2}/\d+)\b` (`re.IGNORECASE` via `_find_first`). -/
def pat_inv1 : RE :=
  reSeqs [wordB,
    .grp 1 (reSeqs [reRepAtLeast chUpperCI 2, reChar false '/', reLit true "PI", reChar false '/',
      chDigit, chDigit, reChar false '-', chDigit, chDigit, reChar false '/', rePlus chDigit]),
    wordB]

/-- `\b([A-Z]{2,}[/\-][A-Z][/\-]\d{2}-\d{2}[/\-]\d+)\b` (classes: slash, dash) (`re.IGNORECASE`). -/
def pat_inv2 : RE :=
  reSeqs [wordB,
    .grp 1 (reSeqs [reRepAtLeast chUpperCI 2, chSet ['/', '-'], chUpperCI, chSet ['/', '-'],
      chDigit, chDigit, reChar false '-', chDigit, chDigit, chSet ['/', '-'], rePlus chDigit]),
    wordB]

/-- `Invoice\s*No\.?\s*&?\s*Date\s*\n\s*([A-Za-z0-9/\-]+)` (`re.IGNORECASE`). -/
def pat_inv3 : RE :=
  reSeqs [reLit true "Invoice", .starG chWs, reLit true "No", reOpt (reChar false '.'),
    .starG chWs, reOpt (reChar false '&'), .starG chWs, reLit true "Date", .starG chWs,
    reChar false '\n', .starG chWs, .grp 1 (rePlus chCodeChar)]

/-- `Exporter:\s*\n\s*([^\n]+)` (`re.IGNORECASE`). -/
def pat_exp1 : RE :=
  reSeqs [reLit true "Exporter:", .starG chWs, reChar false '\n', .starG chWs,
    .grp 1 (rePlus (chNotSet ['\n']))]

/-- `\b(M/S\.[^\n]+?)\s+[A-Z]{2,}/PI/\d{2}-\d{2}/\d+\b` (`re.IGNORECASE`). -/
def pat_exp2 : RE :=
  reSeqs [wordB,
    .grp 1 (reSeqs [reLit true "M/S.", chNotSet ['\n'], .starL (chNotSet ['\n'])]),
    rePlus chWs, reRepAtLeast chUpperCI 2, reChar false '/', reLit true "PI", reChar false '/',
    chDigit, chDigit, reChar false '-', chDigit, chDigit, reChar false '/', rePlus chDigit, wordB]

/-- `[:\s]`. -/
def chColonWs : RE := .cls (fun c => c = ':' || isPySpace c)

/-- `[-./0-9]` (dash, dot, slash, digits). -/
def chDateChar : RE := .cls (fun c => isAsciiDigit c || c = '.' || c = '/' || c = '-')

/-- `Specification\s*No[^\n]*DT[:\s]*([-./0-9]+)` (`re.IGNORECASE`). -/
def pat_sd1 : RE :=
  reSeqs [reLit true "Specification", .starG chWs, reLit true "No", .starG (chNotSet ['\n']),
    reLit true "DT", .starG chColonWs, .grp 1 (rePlus chDateChar)]

/-- `Contract\s*No[^\n]*Dt[:\s]*([-./0-9]+)` (`re.IGNORECASE`). -/
def pat_sd2 : RE :=
  reSeqs [reLit true "Contract", .starG chWs, reLit true "No", .starG (chNotSet ['\n']),
    reLit true "Dt", .starG chColonWs, .grp 1 (rePlus chDateChar)]

def parse_pi_text (pi_text : String) : ExtractedData :=
  let currency := _extract_currency pi_text
  let invoice_no := _find_first [pat_inv1, pat_inv2, pat_inv3] pi_text
  let exporter_name := _find_first [pat_exp1, pat_exp2] pi_text
  let exporter_address := _extract_block pi_text "Exporter:"
    ["Invoice No", "Consignee", "Buyer", "IEC NO", "GSTIN"]
  let buyer_block := _extract_block pi_text "Consignee:"
    ["Buyer", "Country of Origin", "Pre-Carriage", "Terms of Delivery"]
  let buyer_lines := (pySplitlines buyer_block).filter (fun ln => pyStrip ln ≠ "")
  let buyer_name := buyer_lines.headD ""
  let buyer_address :=
    if buyer_lines.length > 1 then pyStrip (String.intercalate "\n" (buyer_lines.drop 1)) else ""
  let description := String.intercalate "\n" (_extract_description_lines pi_text)
  let positions := _extract_positions pi_text description currency
  { invoice_no := invoice_no,
    invoice_date := _extract_invoice_date pi_text,
    buyer_name := buyer_name,
    buyer_address := buyer_address,
    exporter_name := exporter_name,
    exporter_address := exporter_address,
    terms_of_delivery := _extract_terms pi_text,
    specification_date := _find_first [pat_sd1, pat_sd2] pi_text,
    positions := positions,
    currency := currency }

/-- `[^\n.]`. -/
def chNotNlDot : RE := chNotSet ['\n', '.']

def pat_spec_terms1 : RE :=
  reSeqs [reLit true "Delivery", .starG chWs, reLit true "conditions", .starG chWs,
    reOpt (chSet [':', '-']), .starG chWs, .grp 1 (rePlus chNotNlDot)]

def pat_spec_terms2 : RE :=
  reSeqs [reLit true "Terms", .starG chWs, reLit true "of", .starG chWs, reLit true "Delivery",
    .starG chWs, reOpt (chSet [':', '-']), .starG chWs, .grp 1 (rePlus chNotNlDot)]

def pat_spec_terms3 : RE :=
  reSeqs [reLit true "Условия", .starG chWs, reLit true "поставки", .starG chWs,
    reOpt (chSet [':', '-']), .starG chWs, .grp 1 (rePlus chNotNlDot)]

def pat_validity1 : RE :=
  reSeqs [reLit true "Shipment", .starG chWs, reLit true "time", .starG chWs,
    reOpt (chSet [':', '-']), .starG chWs, .grp 1 (rePlus chNotNlDot)]

def pat_validity2 : RE :=
  reSeqs [reLit true "Period", .starG chWs, reLit true "of", .starG chWs, reLit true "Validity",
    .starG chWs, reOpt (chSet [':', '-']), .starG chWs, .grp 1 (rePlus chNotNlDot)]

def pat_validity3 : RE :=
  reSeqs [reLit true "Validity", .starG chWs, reLit true "Period", .starG chWs,
    reOpt (chSet [':', '-']), .starG chWs, .grp 1 (rePlus chNotNlDot)]

def pat_validity4 : RE :=
  reSeqs [reLit true "Valid", .starG chWs, reLit true "for", .starG chWs,
    reOpt (chSet [':', '-']), .starG chWs, .grp 1 (rePlus chNotNlDot)]

/-- `\d{2}[-./]\d{2}[-./]\d{4}` (body of the specification-date patterns). -/
def ddmmyyyy : RE :=
  reSeqs [chDigit, chDigit, chSet ['.', '/', '-'], chDigit, chDigit, chSet ['.', '/', '-'],
    chDigit, chDigit, chDigit, chDigit]

def pat_spec_date1 : RE :=
  reSeqs [reLit true "Specification", .starG chWs, .starG chNonWs, .starG chWs,
    reLit true "of", .starG chWs, .grp 1 ddmmyyyy]

def pat_spec_date2 : RE :=
  reSeqs [reLit true "Moscow", .starG chWs, reChar false '/', .starG chWs, reLit true "Москва",
    .starG chWs, .grp 1 ddmmyyyy]

def pat_spec_date3 : RE := .grp 1 ddmmyyyy

def pat_spec_packing1 : RE :=
  reSeqs [reLit true "Packing", .starG chWs, reOpt (chSet [':', '-']), .starG chWs,
    .grp 1 (rePlus chNotNlDot)]

def pat_spec_packing2 : RE :=
  reSeqs [reLit true "Упаковка", .starG chWs, reOpt (chSet [':', '-']), .starG chWs,
    .grp 1 (rePlus chNotNlDot)]

/-- `parse_specification_text`: the overlay dictionary, as an association
list in insertion order. -/
def parse_specification_text (spec_text : String) : List (String × String) :=
  [("terms_of_delivery",
      _normalize_terms (_find_first [pat_spec_terms1, pat_spec_terms2, pat_spec_terms3] spec_text)),
   ("period_of_validity",
      _find_first [pat_validity1, pat_validity2, pat_validity3, pat_validity4] spec_text),
   ("specification_date",
      _find_first [pat_spec_date1, pat_spec_date2, pat_spec_date3] spec_text),
   ("packing",
      _find_first [pat_spec_packing1, pat_spec_packing2] spec_text)]

/-- `([+-]?\d{1,2})` as capture group `n`. -/
def numGrp (n : Nat) : RE := .grp n (reSeqs [reOpt (chSet ['+', '-']), reRepRange chDigit 1 2])

/-- `(?:°?\s*[cfCF])`. -/
def unitCF : RE := reSeqs [reOpt (reChar false '°'), .starG chWs, chSet ['c', 'f', 'C', 'F']]

/-- `(?:to|and|–|-|~)` (`re.IGNORECASE`). -/
def tempSep : RE :=
  reAlts [reLit true "to", reLit true "and", reChar false '–', reChar false '-', reChar false '~']

/-- `(?:between|from|at)?\s*([+-]?\d{1,2})\s*(?:°?\s*[cfCF])\s*(?:to|and|–|-|~)\s*([+-]?\d{1,2})\s*(?:°?\s*[cfCF])`
(`re.IGNORECASE`). -/
def pat_storage_range : RE :=
  reSeqs [reOpt (reAlts [reLit true "between", reLit true "from", reLit true "at"]),
    .starG chWs, numGrp 1, .starG chWs, unitCF, .starG chWs, tempSep, .starG chWs,
    numGrp 2, .starG chWs, unitCF]

/-- Python `int()` on a `[+-]?\d{1,2}` capture. -/
def pyIntParse (s : String) : Int :=
  match s.data with
  | '+' :: ds => (digitsToNat ds : Int)
  | '-' :: ds => -(digitsToNat ds : Int)
  | ds => (digitsToNat ds : Int)

/-- `_fmt` inside `_normalize_storage_temperature`: explicit sign for
non-negative values. -/
def fmtTemp (v : Int) : String := if 0 ≤ v then "+" ++ toString v else toString v

def _normalize_storage_temperature (text : String) : String :=
  if text = "" then ""
  else
    let low := pyLower text
    if pyContains low "room temperature" || pyContains low "ambient" then
      DEFAULT_STORAGE_TEMPERATURE_EN
    else
      match reSearch pat_storage_range text with
      | some res =>
          let left := pyIntParse (String.mk ((lookupCap res.1 1).getD []))
          let right := pyIntParse (String.mk ((lookupCap res.1 2).getD []))
          fmtTemp left ++ "C to " ++ fmtTemp right ++ "C"
      | none => ""

/-- `storage|store|shipping|transport|keep|maintain` (`re.IGNORECASE`). -/
def pat_storage_kw : RE :=
  reAlts [reLit true "storage", reLit true "store", reLit true "shipping",
    reLit true "transport", reLit true "keep", reLit true "maintain"]

/-- The second-chance pattern of `parse_msds_text`: like `pat_storage_range`
but with a mandatory `(?:between|from|at)` prefix. -/
def pat_msds_range : RE :=
  reSeqs [reAlts [reLit true "between", reLit true "from", reLit true "at"],
    .starG chWs, numGrp 1, .starG chWs, unitCF, .starG chWs, tempSep, .starG chWs,
    numGrp 2, .starG chWs, unitCF]

/-- `room temperature|ambient` (`re.IGNORECASE`). -/
def pat_ambient : RE := .alt (reLit true "room temperature") (reLit true "ambient")

def msdsLineScan : List String → Option String
  | [] => none
  | line :: rest =>
      if reTest pat_storage_kw line then
        let normalized := _normalize_storage_temperature line
        if normalized ≠ "" then some normalized else msdsLineScan rest
      else msdsLineScan rest

def parse_msds_text (msds_text : String) : List (String × String) :=
  let lines := ((pySplitlines msds_text).map pyStrip).filter (· ≠ "")
  match msdsLineScan lines with
  | some normalized => [("storage_temperature", normalized)]
  | none =>
      match reGroup (reSearch pat_msds_range msds_text) 0 with
      | some whole => [("storage_temperature", _normalize_storage_temperature whole)]
      | none =>
          if reTest pat_ambient msds_text then
            [("storage_temperature", DEFAULT_STORAGE_TEMPERATURE_EN)]
          else [("storage_temperature", "")]

/-- Python `dict.get(k)`. -/
def dictGet (d : List (String × String)) (k : String) : Option String :=
  (d.find? (fun kv => kv.1 = k)).map (·.2)

/-- Python `x or y` on an optional string (`None` and `""` are both falsy). -/
def pythonOr (o : Option String) (dflt : String) : String :=
  match o with
  | none => dflt
  | some s => if s = "" then dflt else s

def merge_extraction (pi_data : ExtractedData)
    (spec_data msds_data : Option (List (String × String))) : ExtractedData :=
  let spec_data := spec_data.getD []
  let msds_data := msds_data.getD []
  let terms := pythonOr (dictGet spec_data "terms_of_delivery") pi_data.terms_of_delivery
  let period := pythonOr (dictGet spec_data "period_of_validity") pi_data.period_of_validity
  let sdate := pythonOr (dictGet spec_data "specification_date") pi_data.specification_date
  let storage0 := pythonOr (dictGet msds_data "storage_temperature") pi_data.storage_temperature
  let storage := if storage0 = "" then DEFAULT_STORAGE_TEMPERATURE_EN else storage0
  let packing_from_spec := (dictGet spec_data "packing").getD ""
  let positions := pi_data.positions.map (fun position =>
    let position :=
      if position.currency = "" then { position with currency := pi_data.currency } else position
    let position :=
      if position.storage_temperature = "" then { position with storage_temperature := storage }
      else position
    if position.packing_en = "" ∧ packing_from_spec ≠ "" then
      { position with packing_en := packing_from_spec }
    else position)
  { pi_data with
    terms_of_delivery := terms,
    period_of_validity := period,
    specification_date := sdate,
    storage_temperature := storage,
    positions := positions }

/-! ## `src/doc_builder.py` (pure core: temperature normalization and
position grouping; the docx rendering itself is an external effect) -/

/-- `doc_builder._clean_space`: `re.sub(r"\s+", " ", (text or "").strip())`
(strip first, then collapse — the mirror image of the extractor's helper). -/
def doc_clean_space (text : String) : String :=
  String.mk (collapseWsList (pyStrip text).data)

/-- `([+-]?\d{1,2})\s*C\s*(?:to|–|-)\s*([+-]?\d{1,2})\s*C` (`re.IGNORECASE`). -/
def pat_temp_range : RE :=
  reSeqs [numGrp 1, .starG chWs, reChar true 'C', .starG chWs,
    reAlts [reLit true "to", reChar false '–', reChar false '-'], .starG chWs,
    numGrp 2, .starG chWs, reChar true 'C']

/-- `doc_builder._normalize_temp`. -/
def _normalize_temp (temp : String) : String :=
  let t := doc_clean_space temp
  if t = "" then ""
  else
    match reSearch pat_temp_range t with
    | some res =>
        let l := pyIntParse (String.mk ((lookupCap res.1 1).getD []))
        let r := pyIntParse (String.mk ((lookupCap res.1 2).getD []))
        fmtTemp l ++ "C to " ++ fmtTemp r ++ "C"
    | none =>
        if pyContains (pyLower t) "room temperature" || pyContains (pyLower t) "ambient" then
          DEFAULT_STORAGE_TEMPERATURE_EN
        else t

/-- One `OrderedDict` update of `_group_positions_by_temperature`: create the
key at the end on first sight, append to its list otherwise. -/
def groupInsert (grouped : List (String × List Position)) (temp : String)
    (position : Position) : List (String × List Position) :=
  if grouped.any (fun kv => kv.1 = temp) then
    grouped.map (fun kv => if kv.1 = temp then (kv.1, kv.2 ++ [position]) else kv)
  else grouped ++ [(temp, [position])]

/-- The canonical group key of one position inside the grouping loop:
`_normalize_temp(position.storage_temperature) or
_normalize_temp(data.storage_temperature)`, falling back to the fixed
default. -/
def positionTempKey (data : ExtractedData) (position : Position) : String :=
  let temp0 := _normalize_temp position.storage_temperature
  let temp1 := if temp0 = "" then _normalize_temp data.storage_temperature else temp0
  if temp1 = "" then DEFAULT_STORAGE_TEMPERATURE_EN else temp1

/-- `_group_positions_by_temperature` (the `OrderedDict` is an association
list in key-insertion order). -/
def _group_positions_by_temperature (data : ExtractedData) : List (String × List Position) :=
  let positions := if data.positions.isEmpty then [({} : Position)] else data.positions
  positions.foldl (fun grouped position =>
    groupInsert grouped (positionTempKey data position) position) []

/-- The `positions = data.positions or [Position()]` substitution at the head
of `generate_price_list_doc`. -/
def price_list_positions (data : ExtractedData) : List Position :=
  if data.positions.isEmpty then [({} : Position)] else data.positions

/-! ## `src/pdf_reader.py` (pure core: quality scoring and the per-page
native-vs-OCR choice; PDF parsing and the OCR engine are oracles) -/

structure ExtractionMeta where
  tesseract_available : Bool := false
  pages_total : Nat := 0
  pages_ocrd : Nat := 0
  per_page_source : List String := []
deriving DecidableEq, Repr

structure TextBundle where
  text : String
  meta : ExtractionMeta
deriving DecidableEq, Repr

def quality_keywords : List String :=
  ["invoice", "consignee", "description of goods", "quantity",
   "terms of delivery", "specification", "storage", "temperature"]

/-- `\b[A-Z]{2,}/[A-Z]/\d{2}-\d{2}/\d+\b` (case-sensitive). -/
def pat_invoice_shape : RE :=
  reSeqs [wordB, reRepAtLeast chUpper 2, reChar false '/', chUpper, reChar false '/',
    chDigit, chDigit, reChar false '-', chDigit, chDigit, reChar false '/',
    rePlus chDigit, wordB]

/-- `\d{1,3}(?:,\d{2,3})+(?:\.\d+)?` (case-sensitive). -/
def pat_grouped_number : RE :=
  reSeqs [reRepRange chDigit 1 3,
    rePlus (reSeqs [reChar false ',', reRepRange chDigit 2 3]),
    reOpt (reSeqs [reChar false '.', rePlus chDigit])]

def _quality_score (text : String) : Nat :=
  if text = "" then 0
  else
    let cleaned := pyStrip (String.mk (collapseWsList text.data))
    let score := cleaned.data.length
    let lowered := pyLower cleaned
    let score := score + 80 * (quality_keywords.countP (fun kw => pyContains lowered kw))
    let score := score + (if reTest pat_invoice_shape cleaned then 120 else 0)
    score + (if reTest pat_grouped_number cleaned then 40 else 0)

def _normalize_ocr_noise (text : String) : String :=
  let text := pyReplace text "â€™" "\x27"
  let text := pyReplace text "INR)" "(In INR)"
  String.mk (collapseWs2List text.data)

/-- The per-page loop body of `extract_pdf_text`.  `ocr_raw` is the oracle
text the external OCR engine would deliver for this page
(`_extract_text_ocr_page`, already stripped).  The float comparison
`ocr_score >= native_score * 0.8` is modelled exactly over the rationals as
`5 * ocr_score ≥ 4 * native_score`; for the integer magnitudes the scorer
produces, the IEEE-double evaluation of `native_score * 0.8` orders
identically. -/
def pageStep (tesseract_available force_ocr prefer_ocr : Bool) (min_native_chars : Nat)
    (native_text ocr_raw : String) : String × String :=
  let should_ocr := force_ocr || prefer_ocr || decide (native_text.length < min_native_chars)
  if !(should_ocr && tesseract_available) then (native_text, "native")
  else
    let ocr_text := _normalize_ocr_noise ocr_raw
    let native_score := _quality_score native_text
    let ocr_score := _quality_score ocr_text
    if force_ocr || (prefer_ocr && decide (5 * ocr_score ≥ 4 * native_score)) ||
       decide (ocr_score > native_score) then
      (ocr_text, "ocr")
    else (native_text, "native")

/-- The page loop of `extract_pdf_text`: output pages, per-page sources, and
the `pages_ocrd` counter. -/
def acquirePages (tess force prefer : Bool) (minChars : Nat) (ocr : Nat → String) :
    Nat → List String → List String × List String × Nat
  | _, [] => ([], [], 0)
  | idx, native :: rest =>
      let pr := pageStep tess force prefer minChars native (ocr idx)
      let r := acquirePages tess force prefer minChars ocr (idx + 1) rest
      (pr.1 :: r.1, pr.2 :: r.2.1, (if pr.2 = "ocr" then 1 else 0) + r.2.2)

/-- `extract_pdf_text`, with the external PDF/OCR environment supplied as
oracles: `native_raw` lists the per-page results of
`page.extract_text() or ""` and `ocr i` is the OCR engine's output for page
`i`; both are stripped exactly where the source strips them. -/
def extract_pdf_text (tesseract_available : Bool) (native_raw : List String)
    (ocr : Nat → String) (force_ocr : Bool) (min_native_chars : Nat)
    (prefer_ocr : Bool) : TextBundle :=
  let native_pages := native_raw.map pyStrip
  let r := acquirePages tesseract_available force_ocr prefer_ocr min_native_chars ocr 0 native_pages
  { text := pyStrip (String.intercalate "\n\n" r.1),
    meta := { tesseract_available := tesseract_available,
              pages_total := r.1.length,
              pages_ocrd := r.2.2,
              per_page_source := r.2.1 } }

/-! ## `src/pipeline.py` (the PI native-vs-OCR candidate selection) -/

def _pi_parse_score (data : ExtractedData) : Int :=
  let score : Int := 0
  let score := score + (if data.invoice_no ≠ "" then 3 else 0)
  let score := score + (if data.invoice_date ≠ "" then 2 else 0)
  let score := score + (if data.buyer_name ≠ "" then 1 else 0)
  let score := score + (if data.terms_of_delivery ≠ "" then 2 else 0)
  match data.positions with
  | [] => score
  | first :: _ =>
      let score := score + 2
      let score := score +
        (if first.code ≠ "" then
          2 + (if pyContains first.code " " then -1 else 0)
            + (if pyStartsWith (pyLower first.code) "tin" ||
                  pyStartsWith (pyLower first.code) "mfg" ||
                  pyStartsWith (pyLower first.code) "exp" then -3 else 0)
         else 0)
      let score := score + (if first.unit_price ≠ none then 2 else 0)
      let score := score + (if first.total_price ≠ none then 2 else 0)
      score + (if first.name_en ≠ "" ∧ first.name_en.length > 8 then 1 else 0)

structure PiSelection where
  pi_data : ExtractedData
  selected_source : String
  native_score : Int
  ocr_score : Option Int
deriving DecidableEq, Repr

/-- The PI selection logic of `run_extraction_pipeline` (source lines 49–74),
given the texts produced by the native-pass and forced-OCR-pass acquisitions;
`selected_source` is the value recorded in the diagnostic log under
`pi.selected_source`. -/
def pipeline_select_pi (native_text ocr_text : String) (force_ocr_pi : Bool) : PiSelection :=
  let pi_data_native := parse_pi_text native_text
  let native_score := _pi_parse_score pi_data_native
  if force_ocr_pi then
    let pi_data_ocr := parse_pi_text ocr_text
    let ocr_score := _pi_parse_score pi_data_ocr
    if ocr_score > native_score then
      { pi_data := pi_data_ocr, selected_source := "ocr",
        native_score := native_score, ocr_score := some ocr_score }
    else
      { pi_data := pi_data_native, selected_source := "native",
        native_score := native_score, ocr_score := some ocr_score }
  else
    { pi_data := pi_data_native, selected_source := "native",
      native_score := native_score, ocr_score := none }

/-! ## Theorems -/

theorem pythonOr_eq (o : Option String) (d : String) :
    pythonOr o d = if o.getD "" ≠ "" then o.getD "" else d := by
  cases o with
  | none => simp [pythonOr]
  | some s => by_cases h : s = "" <;> simp [pythonOr, h]

/-- C2: for every PI record and every Specification/MSDS overlay,
`merge_extraction` sets each merged document-level field
(`terms_of_delivery`, `period_of_validity`, `specification_date`,
`storage_temperature`) to the overlay's value when that value is non-empty
and to the PI's value otherwise — a non-empty overlay wins on conflict and an
empty overlay value never blanks a non-empty PI value; when the storage
temperature is empty in both the overlay and the PI, the merged record's
`storage_temperature` is the fixed default `"+15C to +25C ambient"`. -/
theorem merge_extraction_document_precedence (pi : ExtractedData)
    (spec msds : Option (List (String × String))) :
    (merge_extraction pi spec msds).terms_of_delivery =
      (if (dictGet (spec.getD []) "terms_of_delivery").getD "" ≠ "" then
         (dictGet (spec.getD []) "terms_of_delivery").getD ""
       else pi.terms_of_delivery) ∧
    (merge_extraction pi spec msds).period_of_validity =
      (if (dictGet (spec.getD []) "period_of_validity").getD "" ≠ "" then
         (dictGet (spec.getD []) "period_of_validity").getD ""
       else pi.period_of_validity) ∧
    (merge_extraction pi spec msds).specification_date =
      (if (dictGet (spec.getD []) "specification_date").getD "" ≠ "" then
         (dictGet (spec.getD []) "specification_date").getD ""
       else pi.specification_date) ∧
    (merge_extraction pi spec msds).storage_temperature =
      (if (dictGet (msds.getD []) "storage_temperature").getD "" ≠ "" then
         (dictGet (msds.getD []) "storage_temperature").getD ""
       else if pi.storage_temperature ≠ "" then pi.storage_temperature
       else DEFAULT_STORAGE_TEMPERATURE_EN) := by
  refine ⟨?_, ?_, ?_, ?_⟩
  · simp only [merge_extraction, pythonOr_eq]
  · simp only [merge_extraction, pythonOr_eq]
  · simp only [merge_extraction, pythonOr_eq]
  · by_cases h1 : (dictGet (msds.getD []) "storage_temperature").getD "" = "" <;>
      by_cases h2 : pi.storage_temperature = "" <;>
      simp [merge_extraction, pythonOr_eq, h1, h2]

/-- C3: the per-position back-fill of `merge_extraction` is one-way and
non-destructive: a position's non-empty `currency`, `storage_temperature`
and `packing_en` are left unchanged (so `currency="USD"` survives a document
default of `"EUR"`), while an empty `currency` receives the document default
currency, an empty `storage_temperature` the merged document-level
temperature, and an empty `packing_en` the Specification's packing overlay
when that overlay is non-empty; all other fields are untouched. -/
theorem merge_extraction_position_backfill (pi : ExtractedData)
    (spec msds : Option (List (String × String))) (i : Nat) (orig : Position)
    (h : pi.positions[i]? = some orig) :
    (merge_extraction pi spec msds).positions[i]? = some
      { orig with
        currency := if orig.currency = "" then pi.currency else orig.currency,
        storage_temperature :=
          if orig.storage_temperature = "" then
            (merge_extraction pi spec msds).storage_temperature
          else orig.storage_temperature,
        packing_en :=
          if orig.packing_en = "" ∧ (dictGet (spec.getD []) "packing").getD "" ≠ "" then
            (dictGet (spec.getD []) "packing").getD ""
          else orig.packing_en } := by
  simp only [merge_extraction, List.getElem?_map, h, Option.map_some]
  by_cases hc : orig.currency = "" <;>
    by_cases hs : orig.storage_temperature = "" <;>
    by_cases hp : orig.packing_en = "" ∧ (dictGet (spec.getD []) "packing").getD "" ≠ "" <;>
    simp [hc, hs, hp]

def c3pi : ExtractedData :=
  { currency := "EUR", positions := [{ code := "P1", currency := "USD" }] }

def c3spec : Option (List (String × String)) := some [("packing", "10 vials")]

theorem merge_extraction_position_backfill_witness :
    (merge_extraction c3pi c3spec none).positions[0]? = some
      { ({ code := "P1", currency := "USD" } : Position) with
        currency :=
          if ({ code := "P1", currency := "USD" } : Position).currency = "" then c3pi.currency
          else ({ code := "P1", currency := "USD" } : Position).currency,
        storage_temperature :=
          if ({ code := "P1", currency := "USD" } : Position).storage_temperature = "" then
            (merge_extraction c3pi c3spec none).storage_temperature
          else ({ code := "P1", currency := "USD" } : Position).storage_temperature,
        packing_en :=
          if ({ code := "P1", currency := "USD" } : Position).packing_en = "" ∧
             (dictGet (c3spec.getD []) "packing").getD "" ≠ "" then
            (dictGet (c3spec.getD []) "packing").getD ""
          else ({ code := "P1", currency := "USD" } : Position).packing_en } :=
  merge_extraction_position_backfill c3pi c3spec none 0
    { code := "P1", currency := "USD" } rfl

/-- C4 counterexample: the claim's two example inputs do not canonicalize to
`"+2C to +8C"`: neither normalizer recognizes `"2 to 8 C"` (no unit letter
after the first number) or `"2-8°C"` (a degree sign where `_normalize_temp`
requires a bare `C`, and no separator after the closing unit for the MSDS
pattern). -/
theorem temp_canonicalization_counterexample :
    _normalize_temp "2 to 8 C" ≠ "+2C to +8C" ∧
    _normalize_storage_temperature "2 to 8 C" ≠ "+2C to +8C" ∧
    _normalize_temp "2-8°C" ≠ "+2C to +8C" ∧
    _normalize_storage_temperature "2-8°C" ≠ "+2C to +8C" := by decide

/-- C4 (amended): both canonicalizers fix the already-canonical string
`"+15C to +25C"` and both send `"2C to 8C"` to `"+2C to +8C"`; but
`"2 to 8 C"` and `"2-8°C"` are not recognized as ranges — the display
normalizer passes them through unchanged and the MSDS normalizer returns the
empty string. -/
theorem temp_canonicalization_amended :
    _normalize_temp "+15C to +25C" = "+15C to +25C" ∧
    _normalize_storage_temperature "+15C to +25C" = "+15C to +25C" ∧
    _normalize_temp "2C to 8C" = "+2C to +8C" ∧
    _normalize_storage_temperature "2C to 8C" = "+2C to +8C" ∧
    _normalize_temp "2 to 8 C" = "2 to 8 C" ∧
    _normalize_storage_temperature "2 to 8 C" = "" ∧
    _normalize_temp "2-8°C" = "2-8°C" ∧
    _normalize_storage_temperature "2-8°C" = "" := by decide

/-- First-occurrence de-duplication of a key sequence: the order in which an
`OrderedDict` acquires its keys. -/
def firstOcc (ks : List String) : List String :=
  ks.foldl (fun acc k => if acc.contains k then acc else acc ++ [k]) []

theorem any_fst_eq_contains (g : List (String × List Position)) (k : String) :
    g.any (fun kv => kv.1 = k) = (g.map Prod.fst).contains k := by
  induction g with
  | nil => rfl
  | cons kv rest ih =>
      simp only [List.any_cons, List.map_cons, List.contains_cons, ih]
      by_cases h : kv.1 = k
      · simp [h]
      · simp [h, Ne.symm h]

theorem groupInsert_map_fst (g : List (String × List Position)) (k : String) (p : Position) :
    (groupInsert g k p).map Prod.fst =
      if (g.map Prod.fst).contains k then g.map Prod.fst else g.map Prod.fst ++ [k] := by
  unfold groupInsert
  rw [← any_fst_eq_contains]
  by_cases h : g.any (fun kv => kv.1 = k)
  · simp only [h, if_true]
    rw [List.map_map]
    apply List.map_congr_left
    intro kv _
    by_cases hk : kv.1 = k <;> simp [hk]
  · simp only [h]
    simp

theorem group_fold_keys (data : ExtractedData) (ps : List Position)
    (g : List (String × List Position)) :
    (ps.foldl (fun grouped position =>
        groupInsert grouped (positionTempKey data position) position) g).map Prod.fst =
      ps.foldl (fun ks position =>
        if ks.contains (positionTempKey data position) then ks
        else ks ++ [positionTempKey data position]) (g.map Prod.fst) := by
  induction ps generalizing g with
  | nil => rfl
  | cons p rest ih =>
      simp only [List.foldl_cons]
      rw [ih, groupInsert_map_fst]

def c5p1 : Position := { code := "P1", storage_temperature := "2C to 8C" }
def c5p2 : Position := { code := "P2", storage_temperature := "ambient" }
def c5p3 : Position := { code := "P3", storage_temperature := "2C to 8C" }
def c5data : ExtractedData := { positions := [c5p1, c5p2, c5p3] }

/-- C5: grouping preserves first-occurrence order of group keys — the key
sequence of the grouping is exactly the first-occurrence de-duplication of
the positions' canonical keys (own temperature, else document default, else
fixed default) — and each position is appended to the group keyed by its
canonical temperature: three positions with temperatures
`["2C to 8C", "ambient", "2C to 8C"]` yield exactly the two groups
`"+2C to +8C"` (positions 1 and 3, in order) and `"+15C to +25C ambient"`
(position 2), in that key order. -/
theorem grouping_by_temperature_order :
    (∀ data : ExtractedData,
      (_group_positions_by_temperature data).map Prod.fst =
        firstOcc ((if data.positions.isEmpty then [({} : Position)] else data.positions).map
          (positionTempKey data))) ∧
    _group_positions_by_temperature c5data =
      [("+2C to +8C", [c5p1, c5p3]), ("+15C to +25C ambient", [c5p2])] := by
  constructor
  · intro data
    unfold _group_positions_by_temperature firstOcc
    rw [group_fold_keys, List.foldl_map]
    rfl
  · decide

theorem parse_msds_keys (t : String) :
    (parse_msds_text t).map Prod.fst = ["storage_temperature"] := by
  simp only [parse_msds_text]
  repeat' split <;> try rfl

theorem ifEmpty_ne_nil (l : List Position) (x : Position) :
    (if l.isEmpty then [x] else l) ≠ [] := by
  by_cases h : l.isEmpty = true
  · simp [h]
  · rw [if_neg h]
    simpa [List.isEmpty_iff] using h

theorem positionsWithFallback_ne_nil (pi_text currency : String) (ps : List Position) :
    positionsWithFallback pi_text currency ps ≠ [] := by
  simp only [positionsWithFallback]
  exact ifEmpty_ne_nil _ _

theorem finalPriceSwap_ne_nil (pi_text currency : String) (ps : List Position) (h : ps ≠ []) :
    finalPriceSwap pi_text currency ps ≠ [] := by
  match ps with
  | [] => exact absurd rfl h
  | p0 :: rest =>
      simp only [finalPriceSwap]
      repeat' split <;> (try simp)

theorem _extract_positions_ne_nil (pi_text description_text currency : String) :
    _extract_positions pi_text description_text currency ≠ [] := by
  unfold _extract_positions
  apply finalPriceSwap_ne_nil
  intro hnil
  have hlen := congrArg List.length hnil
  rw [List.length_mapIdx] at hlen
  exact positionsWithFallback_ne_nil pi_text currency _ (List.length_eq_zero.mp hlen)

/-- C1: every field extractor is total and returns its populated structure on
every input: the Specification overlay always carries exactly the four keys
`terms_of_delivery`, `period_of_validity`, `specification_date`, `packing`;
the MSDS overlay always carries exactly the key `storage_temperature`; and
the PI extractor always returns a record with at least one position.  (In
this embedding each extractor is a total function, mirroring the source's
policy that a parse miss yields an empty value rather than an exception.) -/
theorem extractors_total_structure (text : String) :
    (parse_specification_text text).map Prod.fst =
      ["terms_of_delivery", "period_of_validity", "specification_date", "packing"] ∧
    (parse_msds_text text).map Prod.fst = ["storage_temperature"] ∧
    1 ≤ (parse_pi_text text).positions.length := by
  refine ⟨rfl, parse_msds_keys text, ?_⟩
  have hpos : (parse_pi_text text).positions =
      _extract_positions text (String.intercalate "\n" (_extract_description_lines text))
        (_extract_currency text) := rfl
  rw [hpos]
  exact List.length_pos.mpr (_extract_positions_ne_nil _ _ _)

/-- C9: the positions list is never treated as empty downstream —
`parse_pi_text` always returns at least one position (an `ITEM-1` placeholder
when nothing was parsed), and the rendering entry points substitute a single
empty `Position` for an empty list: `generate_price_list_doc`'s
`data.positions or [Position()]` head and the identical substitution inside
`_group_positions_by_temperature`. -/
theorem positions_never_empty :
    (∀ text : String, (parse_pi_text text).positions ≠ []) ∧
    (∀ data : ExtractedData, data.positions = [] →
      price_list_positions data = [({} : Position)]) ∧
    (∀ data : ExtractedData, data.positions = [] →
      _group_positions_by_temperature data =
        [(positionTempKey data ({} : Position), [({} : Position)])]) := by
  refine ⟨?_, ?_, ?_⟩
  · intro text
    have hpos : (parse_pi_text text).positions =
        _extract_positions text (String.intercalate "\n" (_extract_description_lines text))
          (_extract_currency text) := rfl
    rw [hpos]
    exact _extract_positions_ne_nil _ _ _
  · intro data h
    simp [price_list_positions, h]
  · intro data h
    simp [_group_positions_by_temperature, h, groupInsert]

def c9data : ExtractedData := {}

theorem positions_never_empty_witness :
    (parse_pi_text "").positions ≠ [] ∧
    price_list_positions c9data = [({} : Position)] ∧
    _group_positions_by_temperature c9data =
      [(positionTempKey c9data ({} : Position), [({} : Position)])] :=
  ⟨positions_never_empty.1 "", positions_never_empty.2.1 c9data rfl,
   positions_never_empty.2.2 c9data rfl⟩

/-- C6: in the orchestrator, when the forced-OCR PI pass runs and its parse
score strictly exceeds the native pass's score, the OCR-derived record is
selected as final and the log's `selected_source` is `"ocr"`; when the
scores tie, the native pass is selected. -/
theorem pipeline_ocr_selection (native_text ocr_text : String) :
    (_pi_parse_score (parse_pi_text ocr_text) > _pi_parse_score (parse_pi_text native_text) →
      (pipeline_select_pi native_text ocr_text true).selected_source = "ocr" ∧
      (pipeline_select_pi native_text ocr_text true).pi_data = parse_pi_text ocr_text) ∧
    (_pi_parse_score (parse_pi_text ocr_text) = _pi_parse_score (parse_pi_text native_text) →
      (pipeline_select_pi native_text ocr_text true).selected_source = "native" ∧
      (pipeline_select_pi native_text ocr_text true).pi_data = parse_pi_text native_text) := by
  constructor
  · intro h
    simp only [pipeline_select_pi, if_true]
    rw [if_pos h]
    exact ⟨rfl, rfl⟩
  · intro h
    simp only [pipeline_select_pi, if_true]
    rw [if_neg (by omega)]
    exact ⟨rfl, rfl⟩

def c6native : String := ""

def c6ocr : String := "Consignee:\nACME LLC\nBuyer\nCIF MOSCOW\n12.10.2024"

theorem pipeline_ocr_selection_witness :
    ((pipeline_select_pi c6native c6ocr true).selected_source = "ocr" ∧
     (pipeline_select_pi c6native c6ocr true).pi_data = parse_pi_text c6ocr) ∧
    ((pipeline_select_pi c6native c6native true).selected_source = "native" ∧
     (pipeline_select_pi c6native c6native true).pi_data = parse_pi_text c6native) :=
  ⟨(pipeline_ocr_selection c6native c6ocr).1 (by decide),
   (pipeline_ocr_selection c6native c6native).2 rfl⟩

/-- C7 counterexample: a page where OCR is attempted (native text shorter
than the threshold), the claim's selection condition holds (the native text
is shorter than the threshold, and the OCR score meets-or-exceeds the native
score), yet the code keeps the native text: without `force_ocr`/`prefer_ocr`
a score tie selects native, so the claimed "exactly when" equivalence
fails. -/
theorem page_ocr_selection_claim_counterexample :
    ((false || false || decide (("ab" : String).length < 60)) && true) = true ∧
    _quality_score (_normalize_ocr_noise "xy") ≥ _quality_score "ab" ∧
    ("ab" : String).length < 60 ∧
    pageStep true false false 60 "ab" "xy" = ("ab", "native") := by decide

/-- C7 (amended): for every page where OCR is attempted (OCR available, and
`force_ocr` set, or `prefer_ocr` set, or the native text shorter than the
threshold), the OCR output is selected exactly when `force_ocr` is set, OR
OCR was merely preferred and the OCR score is at least 80% of the native
score, OR the OCR score strictly exceeds the native score; the
empty/shorter-native condition only triggers the attempt, not the
selection. -/
theorem page_ocr_selection_amended (force_ocr prefer_ocr : Bool) (min_native_chars : Nat)
    (native_text ocr_raw : String)
    (h : (force_ocr || prefer_ocr || decide (native_text.length < min_native_chars)) = true) :
    (pageStep true force_ocr prefer_ocr min_native_chars native_text ocr_raw).2 = "ocr" ↔
      (force_ocr = true ∨
       (prefer_ocr = true ∧
         5 * _quality_score (_normalize_ocr_noise ocr_raw) ≥ 4 * _quality_score native_text) ∨
       _quality_score (_normalize_ocr_noise ocr_raw) > _quality_score native_text) := by
  simp only [pageStep, h, Bool.and_true, Bool.not_true, Bool.false_eq_true, if_false]
  split
  · rename_i hc
    simp only [Bool.or_eq_true, Bool.and_eq_true, decide_eq_true_eq] at hc
    refine iff_of_true rfl ?_
    tauto
  · rename_i hc
    simp only [Bool.or_eq_true, Bool.and_eq_true, decide_eq_true_eq] at hc
    refine iff_of_false (by simp) ?_
    intro hor
    apply hc
    tauto

theorem page_ocr_selection_amended_witness :
    (pageStep true true false 60 "" "zz").2 = "ocr" :=
  (page_ocr_selection_amended true false 60 "" "zz" (by decide)).mpr (Or.inl rfl)

/-- C8 counterexample: with OCR unavailable and an empty first page, the
returned blob is the stripped join `"a"`, not the blank-line join `"\n\na"`
of the per-page native texts, so the text is not exactly the joined pages. -/
theorem ocr_unavailable_counterexample :
    (extract_pdf_text false ["", "a"] (fun _ => "") true 60 true).text = "a" ∧
    String.intercalate "\n\n" ["", "a"] = "\n\na" ∧
    ("a" : String) ≠ "\n\na" := by decide

theorem acquirePages_no_tesseract (force prefer : Bool) (minChars : Nat) (ocr : Nat → String)
    (i : Nat) (pages : List String) :
    acquirePages false force prefer minChars ocr i pages =
      (pages, List.replicate pages.length "native", 0) := by
  induction pages generalizing i with
  | nil => rfl
  | cons p rest ih =>
      simp only [acquirePages, pageStep, Bool.and_false, Bool.not_false, if_true]
      rw [ih]
      simp [List.replicate_succ]

/-- C8 (amended): when the OCR engine is unavailable, `extract_pdf_text`
keeps the native-extracted text of every page — the output pages are exactly
the stripped native pages, the blob is their blank-line join with the final
`strip()` the source applies, every `per_page_source` entry is `"native"`
and `pages_ocrd` is zero — regardless of the `force_ocr` and `prefer_ocr`
flags. -/
theorem ocr_unavailable_all_native (native_raw : List String) (ocr : Nat → String)
    (force_ocr : Bool) (min_native_chars : Nat) (prefer_ocr : Bool) :
    (acquirePages false force_ocr prefer_ocr min_native_chars ocr 0 (native_raw.map pyStrip)).1 =
      native_raw.map pyStrip ∧
    (extract_pdf_text false native_raw ocr force_ocr min_native_chars prefer_ocr).text =
      pyStrip (String.intercalate "\n\n" (native_raw.map pyStrip)) ∧
    (extract_pdf_text false native_raw ocr force_ocr min_native_chars
      prefer_ocr).meta.per_page_source = List.replicate native_raw.length "native" ∧
    (extract_pdf_text false native_raw ocr force_ocr min_native_chars prefer_ocr).meta.pages_ocrd
      = 0 := by
  have h := acquirePages_no_tesseract force_ocr prefer_ocr min_native_chars ocr 0
    (native_raw.map pyStrip)
  refine ⟨?_, ?_, ?_, ?_⟩ <;> simp [extract_pdf_text, h]

theorem pageStep_source (tess force prefer : Bool) (minChars : Nat) (native ocrRaw : String) :
    (pageStep tess force prefer minChars native ocrRaw).2 = "native" ∨
    (pageStep tess force prefer minChars native ocrRaw).2 = "ocr" := by
  simp only [pageStep]
  repeat' split <;> simp

theorem acquirePages_consistent (tess force prefer : Bool) (minChars : Nat) (ocr : Nat → String)
    (i : Nat) (pages : List String) :
    (acquirePages tess force prefer minChars ocr i pages).2.1.length =
      (acquirePages tess force prefer minChars ocr i pages).1.length ∧
    (acquirePages tess force prefer minChars ocr i pages).2.1.all
      (fun s => s == "native" || s == "ocr") = true ∧
    (acquirePages tess force prefer minChars ocr i pages).2.2 =
      (acquirePages tess force prefer minChars ocr i pages).2.1.count "ocr" := by
  induction pages generalizing i with
  | nil => exact ⟨rfl, rfl, rfl⟩
  | cons p rest ih =>
      obtain ⟨ih1, ih2, ih3⟩ := ih (i + 1)
      simp only [acquirePages]
      refine ⟨by simp [ih1], ?_, ?_⟩
      · rcases pageStep_source tess force prefer minChars p (ocr i) with hs | hs <;>
          simp [hs, ih2]
      · rcases pageStep_source tess force prefer minChars p (ocr i) with hs | hs <;>
          simp [hs, ih3, List.count_cons, Nat.add_comm]

/-- C10: for every input, the returned `ExtractionMeta` is internally
consistent: `per_page_source` has exactly `pages_total` entries, every entry
is `"native"` or `"ocr"`, and `pages_ocrd` counts the `"ocr"` entries. -/
theorem extraction_meta_consistent (tess : Bool) (native_raw : List String) (ocr : Nat → String)
    (force_ocr : Bool) (min_native_chars : Nat) (prefer_ocr : Bool) :
    (extract_pdf_text tess native_raw ocr force_ocr min_native_chars
        prefer_ocr).meta.per_page_source.length =
      (extract_pdf_text tess native_raw ocr force_ocr min_native_chars
        prefer_ocr).meta.pages_total ∧
    (extract_pdf_text tess native_raw ocr force_ocr min_native_chars
        prefer_ocr).meta.per_page_source.all (fun s => s == "native" || s == "ocr") = true ∧
    (extract_pdf_text tess native_raw ocr force_ocr min_native_chars prefer_ocr).meta.pages_ocrd =
      (extract_pdf_text tess native_raw ocr force_ocr min_native_chars
        prefer_ocr).meta.per_page_source.count "ocr" := by
  obtain ⟨h1, h2, h3⟩ := acquirePages_consistent tess force_ocr prefer_ocr min_native_chars ocr 0
    (native_raw.map pyStrip)
  exact ⟨by simpa [extract_pdf_text] using h1,
         by simpa [extract_pdf_text] using h2,
         by simpa [extract_pdf_text] using h3⟩

end PriceLabel
